import Mathlib

/-!
Verification of the local resource-aware batch scheduler of the
mwa_polcal_pipeline repository (`src/basic_func.py`, `src/correct_pb.py`).

The Python functions are shallowly embedded as executable Lean
definitions: percentages and gigabyte quantities become rationals,
Python `int(...)` truncation becomes `pyInt`, filesystem existence
checks become membership in explicit lists of file names, and the
fallible parts (Python exceptions) become `Except`.
-/

/-- Python `int(x)` on a float or true-division result truncates toward
zero; on the reduced fraction `num / den` this is the truncating
integer division of the numerator by the denominator. -/
def pyInt (q : ℚ) : ℤ :=
  q.num.tdiv (q.den : ℤ)

/-- Python membership `x in l` for a list of strings. -/
def pyIn (x : String) (l : List String) : Bool :=
  decide (x ∈ l)

/-!
## ResourceMonitor: `check_resource_availability` (basic_func.py lines 733-761)
-/

/-- One sample of host resources, as read by `psutil` in
`check_resource_availability`: `psutil.cpu_percent(interval=1)`,
`psutil.virtual_memory().available` / `.total`, and
`psutil.swap_memory().free` / `.total`. -/
structure ResourceSnapshot where
  cpu_percent : ℚ
  mem_available : ℚ
  mem_total : ℚ
  swap_free : ℚ
  swap_total : ℚ

/-- Embedding of `check_resource_availability(cpu_threshold, memory_threshold)`
from basic_func.py lines 733-761: CPU is available when
`current_cpu_usage < 100 - cpu_threshold`; memory is sufficient when the
available-memory percentage exceeds `memory_threshold`; the swap
percentage is `swap.free / swap.total * 100` when swap is configured and
`0` otherwise (the code comment reads "0% if no swap is configured"),
and must exceed `memory_threshold`. -/
def check_resource_availability (s : ResourceSnapshot)
    (cpu_threshold memory_threshold : ℚ) : Bool :=
  let cpu_available := decide (s.cpu_percent < (100 - cpu_threshold))
  let memory_available := s.mem_available / s.mem_total * 100
  let memory_sufficient := decide (memory_available > memory_threshold)
  let swap_available :=
    if s.swap_total > 0 then s.swap_free / s.swap_total * 100 else 0
  let swap_sufficient := decide (swap_available > memory_threshold)
  cpu_available && memory_sufficient && swap_sufficient

/-- The behaviour C3 claims for `check_resource_availability`, written
from the spec's words: `100 - cpu_busy_pct >= cpu_floor_pct` AND
`mem_available_pct > mem_floor_pct` AND `swap_available_pct >
mem_floor_pct`, with the swap conjunct vacuously satisfied on a host
with no swap configured. -/
def claimedResourceCheck (s : ResourceSnapshot)
    (cpu_floor mem_floor : ℚ) : Prop :=
  100 - s.cpu_percent ≥ cpu_floor ∧
  s.mem_available / s.mem_total * 100 > mem_floor ∧
  (s.swap_total > 0 → s.swap_free / s.swap_total * 100 > mem_floor)

/-!
## CapacityPlanner: the planning head of `correctpb_spectral_images`
(correct_pb.py lines 44-69)
-/

/-- Host facts read by the planning head of `correctpb_spectral_images`:
the logical CPU count and instantaneous CPU load (line 53-55), the
available memory in GB (line 56), the size in GB that
`os.path.getsize` reports for each image file (line 61), and whether
the `pbcor_images` / `pbs` subdirectories already exist (lines 45-48). -/
structure HostEnv where
  cpu_count : ℤ
  cpu_percent : ℚ
  available_mem : ℚ
  fileSize : String → ℚ
  pbcorDirExists : Bool
  pbsDirExists : Bool

/-- The concurrency plan computed at correct_pb.py lines 62-69. -/
structure CapacityPlan where
  n_jobs : ℤ
  per_job_cpu : ℤ
deriving DecidableEq, Repr

/-- Directory-creation side effects of correct_pb.py lines 45-48. -/
inductive DirEffect where
  | mkdirPbcor
  | mkdirPbs
deriving DecidableEq, Repr

/-- Embedding of correct_pb.py lines 44-69: the prelude of
`correctpb_spectral_images` up to and including the capacity plan.
`images` is the sorted glob result for `*image.fits`; the two
directories are created when missing (lines 45-48); `ncpu0 = -1`
auto-detects the CPU budget (lines 52-55); the memory budget is capped
by available memory (lines 56-60); the representative file size is read
from `images[0]` (line 61), which raises `IndexError` on an empty list;
`max_jobs = int(mem / (3 * file_size))` (line 62), `n_jobs` is the
minimum of `ncpu` and `max_jobs` (lines 63-66), and
`per_job_cpu = int(ncpu / n_jobs)` (line 67) raises
`ZeroDivisionError` when `n_jobs = 0`, else is floored at 1
(lines 68-69). -/
def correctpbSetup (env : HostEnv) (images : List String)
    (ncpu0 : ℤ) (mem0 : ℚ) : List DirEffect × Except String CapacityPlan :=
  let effs := (if env.pbcorDirExists then [] else [DirEffect.mkdirPbcor]) ++
              (if env.pbsDirExists then [] else [DirEffect.mkdirPbs])
  let ncpu : ℤ :=
    if ncpu0 = -1 then
      pyInt ((env.cpu_count : ℚ) * (100 - env.cpu_percent) / 100)
    else ncpu0
  let mem : ℚ :=
    if mem0 = -1 then env.available_mem
    else if mem0 > env.available_mem then env.available_mem
    else mem0
  match images with
  | [] => (effs, Except.error "IndexError")
  | img0 :: _ =>
      let file_size := env.fileSize img0
      let max_jobs := pyInt (mem / (3 * file_size))
      let n_jobs := if ncpu < max_jobs then ncpu else max_jobs
      if n_jobs = 0 then (effs, Except.error "ZeroDivisionError")
      else
        let per_job_cpu := pyInt ((ncpu : ℚ) / (n_jobs : ℚ))
        let per_job_cpu := if per_job_cpu < 1 then 1 else per_job_cpu
        (effs, Except.ok ⟨n_jobs, per_job_cpu⟩)

/-- A concrete host for the C1 scenario: plenty of CPU and memory, a
representative image file of 2 GB. -/
def hostC1 : HostEnv :=
  { cpu_count := 8
    cpu_percent := 50
    available_mem := 16
    fileSize := fun _ => 2
    pbcorDirExists := true
    pbsDirExists := true }

/-- Helper: with swap configured, `check_resource_availability` is the
conjunction of the three threshold comparisons with the real swap
percentage. -/
lemma check_resource_availability_swap_pos (s : ResourceSnapshot) (c m : ℚ)
    (hs : s.swap_total > 0) :
    check_resource_availability s c m = true ↔
      (s.cpu_percent < 100 - c ∧
       s.mem_available / s.mem_total * 100 > m ∧
       s.swap_free / s.swap_total * 100 > m) := by
  simp only [check_resource_availability, if_pos hs, Bool.and_eq_true,
    decide_eq_true_eq]
  tauto

/-- Helper: with no swap configured, the swap percentage is taken to be
`0`, so the swap conjunct compares `0` with the memory threshold. -/
lemma check_resource_availability_swap_zero (s : ResourceSnapshot) (c m : ℚ)
    (hs : ¬ s.swap_total > 0) :
    check_resource_availability s c m = true ↔
      (s.cpu_percent < 100 - c ∧
       s.mem_available / s.mem_total * 100 > m ∧
       (0 : ℚ) > m) := by
  simp only [check_resource_availability, if_neg hs, Bool.and_eq_true,
    decide_eq_true_eq]
  tauto

/-- A snapshot with the CPU exactly at the claimed boundary
(busy 80 %, floor 20 %) and no swap configured: the claimed predicate
holds (`100 - 80 >= 20`, memory fine, swap vacuous) but the code
returns `false` (it requires `80 < 100 - 20` strictly, and its swap
percentage on a no-swap host is `0`, which is not `> 20`). -/
def snapC3 : ResourceSnapshot := ⟨80, 50, 100, 0, 0⟩

/-- C3 counterexample: at `snapC3` with both floors at 20 the claimed
if-and-only-if characterisation of `check_resource_availability` fails:
the claimed condition holds while the function returns `false`. -/
theorem C3_counterexample :
    ¬ (check_resource_availability snapC3 20 20 = true ↔
       claimedResourceCheck snapC3 20 20) := by
  norm_num [check_resource_availability, claimedResourceCheck, snapC3]

/-- C3 (amended): `check_resource_availability` returns true iff
`100 - cpu_busy_pct > cpu_floor_pct` (strictly) AND
`mem_available_pct > mem_floor_pct` AND the swap conjunct, where on a
host with swap configured the swap conjunct is
`swap_available_pct > mem_floor_pct`, and on a host with no swap
configured the swap availability is taken to be 0 %, so the swap
conjunct holds only when `mem_floor_pct < 0`. -/
theorem C3_check_resource_availability_characterisation
    (s : ResourceSnapshot) (c m : ℚ) :
    check_resource_availability s c m = true ↔
      (100 - s.cpu_percent > c ∧
       s.mem_available / s.mem_total * 100 > m ∧
       ((s.swap_total > 0 ∧ s.swap_free / s.swap_total * 100 > m) ∨
        (¬ s.swap_total > 0 ∧ m < 0))) := by
  by_cases hs : s.swap_total > 0
  · rw [check_resource_availability_swap_pos s c m hs]
    constructor
    · rintro ⟨h1, h2, h3⟩
      exact ⟨by linarith, h2, Or.inl ⟨hs, h3⟩⟩
    · rintro ⟨h1, h2, h3⟩
      refine ⟨by linarith, h2, ?_⟩
      rcases h3 with ⟨_, hp⟩ | ⟨hns, _⟩
      · exact hp
      · exact absurd hs hns
  · rw [check_resource_availability_swap_zero s c m hs]
    constructor
    · rintro ⟨h1, h2, h3⟩
      exact ⟨by linarith, h2, Or.inr ⟨hs, by linarith⟩⟩
    · rintro ⟨h1, h2, h3⟩
      refine ⟨by linarith, h2, ?_⟩
      rcases h3 with ⟨hp, _⟩ | ⟨_, hp⟩
      · exact absurd hp hs
      · linarith

/-- C1: the capacity-planning step is not total — with a representative
file of 2 GB and a memory budget of 5 GB, `max_jobs = int(5 / 6) = 0`,
`n_jobs = min(ncpu, max_jobs) = 0`, and `per_job_cpu = int(ncpu / n_jobs)`
raises `ZeroDivisionError` instead of returning a concurrency of 1. -/
theorem C1_planner_zero_division :
    (correctpbSetup hostC1 ["ch-coch-100-iquv-image.fits"] 4 5).2 =
      Except.error "ZeroDivisionError" := by
  have h : Int.tdiv 5 6 = 0 := by decide
  norm_num [correctpbSetup, hostC1, pyInt, h]

/-- C8: with no file matching `*image.fits`, `correctpb_spectral_images`
creates the `pbcor_images` and `pbs` directories (lines 45-48) and then
raises an uncaught `IndexError` at `os.path.getsize(images[0])`
(line 61), never reaching a "nothing to do" result. -/
theorem C8_empty_glob_index_error (env : HostEnv)
    (h1 : env.pbcorDirExists = false) (h2 : env.pbsDirExists = false)
    (ncpu0 : ℤ) (mem0 : ℚ) :
    correctpbSetup env [] ncpu0 mem0 =
      ([DirEffect.mkdirPbcor, DirEffect.mkdirPbs], Except.error "IndexError") := by
  simp [correctpbSetup, h1, h2]

/-- A concrete host with neither output directory present, for
exercising `C8_empty_glob_index_error`. -/
def hostC8 : HostEnv :=
  { cpu_count := 4
    cpu_percent := 0
    available_mem := 8
    fileSize := fun _ => 1
    pbcorDirExists := false
    pbsDirExists := false }

/-- Witness for C8 at a concrete host and the default budgets. -/
theorem C8_empty_glob_index_error_witness :
    hostC8.pbcorDirExists = false ∧ hostC8.pbsDirExists = false ∧
    correctpbSetup hostC8 [] (-1) (-1) =
      ([DirEffect.mkdirPbcor, DirEffect.mkdirPbs], Except.error "IndexError") :=
  ⟨rfl, rfl, C8_empty_glob_index_error hostC8 rfl rfl (-1) (-1)⟩

/-!
## WorkDeduplicator: the per-image loop of `correctpb_spectral_images`
(correct_pb.py lines 73-109)
-/

/-- Worker for `pySplit`: scans the character list left to right,
accumulating the current piece in reverse; on each position where the
(nonempty) separator is a leading pattern of the remainder, closes the
current piece and continues past the separator. The fuel starts at the
list length and bounds the recursion; at least one character is
consumed per step, so the fuel never runs out on real calls. -/
def pySplitGo (sep : List Char) : Nat → List Char → List Char → List (List Char)
  | _, [], acc => [acc.reverse]
  | 0, l, acc => [acc.reverse ++ l]
  | Nat.succ fuel, c :: rest, acc =>
      if sep.isPrefixOf (c :: rest) then
        acc.reverse :: pySplitGo sep fuel (List.drop (sep.length - 1) rest) []
      else
        pySplitGo sep fuel rest (c :: acc)

/-- Python `s.split(sep)` for a nonempty separator: left-to-right,
non-overlapping matches, always at least one resulting piece. -/
def pySplit (s sep : String) : List String :=
  (pySplitGo sep.data s.data.length s.data []).map String.mk

/-- Python `"MFS" in os.path.basename(imagename)` (correct_pb.py
line 75): the basename contains the substring `MFS` exactly when
splitting on it yields more than one piece. -/
def isMFS (b : String) : Bool :=
  decide ((pySplit b "MFS").length ≠ 1)

/-- `os.path.basename(imagename).split("-coch-")[-1].split("-")[0]`
(correct_pb.py line 76): the coarse-channel dedup key parsed from the
filename. Python `split` always returns a nonempty list, so the
`[-1]` / `[0]` indexing is `getLastD` / `headD`. -/
def getCoch (b : String) : String :=
  ((pySplit ((pySplit b "-coch-").getLastD "") "-")).headD ""

/-- `os.path.basename(imagename).split(".fits")[0] + "_pbcor"`
(correct_pb.py line 77): the corrected-output name stem. -/
def getOutfile (b : String) : String :=
  ((pySplit b ".fits").headD "") ++ "_pbcor"

/-- The filesystem facts the loop consults: the basenames present in
`imagedir/pbcor_images/` and the coarse-channel keys `coch` for which
`imagedir/pbs/pbfile_<coch>.npy` exists. -/
structure FileState where
  outputs : List String
  artifacts : List String

/-- The skip test at correct_pb.py lines 94-100: the item needs work
when its corrected output is missing from `pbcor_images` OR its
channel's cached `pbs/pbfile_<coch>.npy` artifact is missing. -/
def needsWork (fs : FileState) (b : String) : Bool :=
  !(pyIn (getOutfile b ++ ".fits") fs.outputs) ||
  !(pyIn (getCoch b) fs.artifacts)

/-- One queued correction job: the image basename it corrects and its
coarse-channel dedup key. (The generated `mwapb.py` command string is
determined by these two fields plus run-constant options.) -/
structure PBJob where
  image : String
  key : String
deriving DecidableEq, Repr

/-- The loop state of correct_pb.py lines 49-51 and 73-109: the keys
already claimed by a primary (`pb_coch`), the primary commands
(`cmd_list_1`, each saving `pbs/pbfile_<coch>`), and the secondary
commands (`cmd_list_2`, each reusing `pbs/pbfile_<coch>.npy`). -/
structure PartitionState where
  pb_coch : List String
  cmd_list_1 : List PBJob
  cmd_list_2 : List PBJob
deriving DecidableEq, Repr

/-- One iteration of the loop at correct_pb.py lines 73-109: MFS images
are ignored (line 75); an image needing work joins `cmd_list_2` when
its key already has a primary (lines 101-105) and otherwise claims the
key and joins `cmd_list_1` (lines 106-109). -/
def partitionOne (fs : FileState) (st : PartitionState) (b : String) :
    PartitionState :=
  if isMFS b then st
  else
    let coch := getCoch b
    if needsWork fs b then
      if pyIn coch st.pb_coch then
        { st with cmd_list_2 := st.cmd_list_2 ++ [⟨b, coch⟩] }
      else
        { st with
            pb_coch := st.pb_coch ++ [coch]
            cmd_list_1 := st.cmd_list_1 ++ [⟨b, coch⟩] }
    else st

/-- The whole loop of correct_pb.py lines 73-109, starting from the
empty lists of lines 49-51. -/
def partitionImages (fs : FileState) (images : List String) :
    PartitionState :=
  images.foldl (partitionOne fs) ⟨[], [], []⟩

/-- The non-MFS items the loop does not skip: these are exactly the
images for which a command is queued. -/
def processedImages (fs : FileState) (images : List String) : List String :=
  images.filter (fun b => !(isMFS b) && needsWork fs b)

example :
    partitionImages ⟨[], []⟩
      ["a-coch-100-image.fits", "b-coch-100-image.fits",
       "c-coch-121-image.fits", "d-MFS-image.fits"] =
    ⟨["100", "121"],
     [⟨"a-coch-100-image.fits", "100"⟩, ⟨"c-coch-121-image.fits", "121"⟩],
     [⟨"b-coch-100-image.fits", "100"⟩]⟩ := by decide

/-- A loop iteration with an MFS image, or one whose output and
artifact both already exist, leaves the loop state unchanged. -/
lemma partitionOne_skip (fs : FileState) (st : PartitionState) (b : String)
    (h : isMFS b = true ∨ needsWork fs b = false) :
    partitionOne fs st b = st := by
  rcases h with h | h <;> simp [partitionOne, h]

/-- A processed image whose key already has a primary is appended to
`cmd_list_2`. -/
lemma partitionOne_secondary (fs : FileState) (st : PartitionState)
    (b : String) (h1 : isMFS b = false) (h2 : needsWork fs b = true)
    (h3 : getCoch b ∈ st.pb_coch) :
    partitionOne fs st b =
      { st with cmd_list_2 := st.cmd_list_2 ++ [⟨b, getCoch b⟩] } := by
  simp [partitionOne, pyIn, h1, h2, h3]

/-- A processed image with an unclaimed key claims it and is appended
to `cmd_list_1`. -/
lemma partitionOne_primary (fs : FileState) (st : PartitionState)
    (b : String) (h1 : isMFS b = false) (h2 : needsWork fs b = true)
    (h3 : getCoch b ∉ st.pb_coch) :
    partitionOne fs st b =
      { st with
          pb_coch := st.pb_coch ++ [getCoch b]
          cmd_list_1 := st.cmd_list_1 ++ [⟨b, getCoch b⟩] } := by
  simp [partitionOne, pyIn, h1, h2, h3]

/-- Core invariants of the deduplication loop, proved for a run of the
loop from any state already satisfying them: the claimed-key list is
exactly the primaries' key list, it has no duplicates, every
secondary's key is claimed, the two command lists together grow by one
entry per processed image, and the claimed-key set grows by exactly the
processed images' key set. -/
lemma foldPartition_spec (fs : FileState) :
    ∀ (l : List String) (st : PartitionState),
      st.pb_coch = st.cmd_list_1.map PBJob.key →
      st.pb_coch.Nodup →
      (∀ j ∈ st.cmd_list_2, j.key ∈ st.pb_coch) →
      ((l.foldl (partitionOne fs) st).pb_coch
          = (l.foldl (partitionOne fs) st).cmd_list_1.map PBJob.key) ∧
      (l.foldl (partitionOne fs) st).pb_coch.Nodup ∧
      (∀ j ∈ (l.foldl (partitionOne fs) st).cmd_list_2,
          j.key ∈ (l.foldl (partitionOne fs) st).pb_coch) ∧
      ((l.foldl (partitionOne fs) st).cmd_list_1.length
          + (l.foldl (partitionOne fs) st).cmd_list_2.length
        = st.cmd_list_1.length + st.cmd_list_2.length
          + (processedImages fs l).length) ∧
      (l.foldl (partitionOne fs) st).pb_coch.toFinset
        = st.pb_coch.toFinset ∪ ((processedImages fs l).map getCoch).toFinset
  | [], st => by
      intro h1 h2 h3
      simp [processedImages]
      exact ⟨h1, h2, h3⟩
  | b :: l, st => by
      intro h1 h2 h3
      by_cases hm : isMFS b = true
      · rw [List.foldl_cons, partitionOne_skip fs st b (Or.inl hm)]
        have hp : processedImages fs (b :: l) = processedImages fs l := by
          simp [processedImages, List.filter_cons, hm]
        rw [hp]
        exact foldPartition_spec fs l st h1 h2 h3
      · have hm' : isMFS b = false := by simpa using hm
        by_cases hn : needsWork fs b = true
        · have hp : processedImages fs (b :: l) = b :: processedImages fs l := by
            simp [processedImages, List.filter_cons, hm', hn]
          by_cases hc : getCoch b ∈ st.pb_coch
          · rw [List.foldl_cons, partitionOne_secondary fs st b hm' hn hc, hp]
            have ih := foldPartition_spec fs l
              { st with cmd_list_2 := st.cmd_list_2 ++ [⟨b, getCoch b⟩] }
              (by simpa using h1) (by simpa using h2)
              (by
                intro j hj
                simp only [List.mem_append, List.mem_singleton] at hj
                rcases hj with hj | hj
                · exact h3 j hj
                · subst hj; exact hc)
            refine ⟨ih.1, ih.2.1, ih.2.2.1, ?_, ?_⟩
            · rw [ih.2.2.2.1]
              show st.cmd_list_1.length
                    + (st.cmd_list_2 ++ [PBJob.mk b (getCoch b)]).length
                    + (processedImages fs l).length
                  = st.cmd_list_1.length + st.cmd_list_2.length
                    + (b :: processedImages fs l).length
              simp only [List.length_append, List.length_singleton,
                List.length_cons, List.length_nil]
              omega
            · have hfin := ih.2.2.2.2
              rw [hfin]
              show st.pb_coch.toFinset
                    ∪ ((processedImages fs l).map getCoch).toFinset
                  = st.pb_coch.toFinset
                    ∪ ((getCoch b :: (processedImages fs l).map getCoch)).toFinset
              simp only [List.toFinset_cons]
              ext a
              simp only [Finset.mem_union, Finset.mem_insert,
                List.mem_toFinset]
              constructor
              · rintro (ha | ha)
                · exact Or.inl ha
                · exact Or.inr (Or.inr ha)
              · rintro (ha | rfl | ha)
                · exact Or.inl ha
                · exact Or.inl hc
                · exact Or.inr ha
          · rw [List.foldl_cons, partitionOne_primary fs st b hm' hn hc, hp]
            have ih := foldPartition_spec fs l
              { st with
                  pb_coch := st.pb_coch ++ [getCoch b]
                  cmd_list_1 := st.cmd_list_1 ++ [⟨b, getCoch b⟩] }
              (by simp [h1])
              (by simp [List.nodup_append, h2, hc])
              (by
                intro j hj
                exact List.mem_append_left _ (h3 j hj))
            refine ⟨ih.1, ih.2.1, ih.2.2.1, ?_, ?_⟩
            · rw [ih.2.2.2.1]
              show (st.cmd_list_1 ++ [PBJob.mk b (getCoch b)]).length
                    + st.cmd_list_2.length
                    + (processedImages fs l).length
                  = st.cmd_list_1.length + st.cmd_list_2.length
                    + (b :: processedImages fs l).length
              simp only [List.length_append, List.length_singleton,
                List.length_cons, List.length_nil]
              omega
            · have hfin := ih.2.2.2.2
              rw [hfin]
              show (st.pb_coch ++ [getCoch b]).toFinset
                    ∪ ((processedImages fs l).map getCoch).toFinset
                  = st.pb_coch.toFinset
                    ∪ ((getCoch b :: (processedImages fs l).map getCoch)).toFinset
              simp only [List.toFinset_append, List.toFinset_cons,
                List.toFinset_nil]
              ext a
              simp only [Finset.mem_union, Finset.mem_insert,
                List.mem_toFinset, Finset.not_mem_empty, or_false]
              tauto
        · have hn' : needsWork fs b = false := by simpa using hn
          rw [List.foldl_cons, partitionOne_skip fs st b (Or.inr hn')]
          have hp : processedImages fs (b :: l) = processedImages fs l := by
            simp [processedImages, List.filter_cons, hn']
          rw [hp]
          exact foldPartition_spec fs l st h1 h2 h3

/-- A loop iteration never removes a queued primary. -/
lemma partitionOne_mono_1 (fs : FileState) (st : PartitionState) (b : String)
    (j : PBJob) (h : j ∈ st.cmd_list_1) :
    j ∈ (partitionOne fs st b).cmd_list_1 := by
  by_cases hm : isMFS b = true
  · rwa [partitionOne_skip fs st b (Or.inl hm)]
  · have hm' : isMFS b = false := by simpa using hm
    by_cases hn : needsWork fs b = true
    · by_cases hc : getCoch b ∈ st.pb_coch
      · rw [partitionOne_secondary fs st b hm' hn hc]
        exact h
      · rw [partitionOne_primary fs st b hm' hn hc]
        exact List.mem_append_left _ h
    · have hn' : needsWork fs b = false := by simpa using hn
      rwa [partitionOne_skip fs st b (Or.inr hn')]

/-- A loop iteration never removes a queued secondary. -/
lemma partitionOne_mono_2 (fs : FileState) (st : PartitionState) (b : String)
    (j : PBJob) (h : j ∈ st.cmd_list_2) :
    j ∈ (partitionOne fs st b).cmd_list_2 := by
  by_cases hm : isMFS b = true
  · rwa [partitionOne_skip fs st b (Or.inl hm)]
  · have hm' : isMFS b = false := by simpa using hm
    by_cases hn : needsWork fs b = true
    · by_cases hc : getCoch b ∈ st.pb_coch
      · rw [partitionOne_secondary fs st b hm' hn hc]
        exact List.mem_append_left _ h
      · rw [partitionOne_primary fs st b hm' hn hc]
        exact h
    · have hn' : needsWork fs b = false := by simpa using hn
      rwa [partitionOne_skip fs st b (Or.inr hn')]

/-- Primaries queued before some tail of the loop are still queued at
its end. -/
lemma foldPartition_mono_1 (fs : FileState) :
    ∀ (l : List String) (st : PartitionState) (j : PBJob),
      j ∈ st.cmd_list_1 → j ∈ (l.foldl (partitionOne fs) st).cmd_list_1
  | [], _, _ => fun h => h
  | b :: l, st, j => fun h =>
      foldPartition_mono_1 fs l (partitionOne fs st b) j
        (partitionOne_mono_1 fs st b j h)

/-- Secondaries queued before some tail of the loop are still queued at
its end. -/
lemma foldPartition_mono_2 (fs : FileState) :
    ∀ (l : List String) (st : PartitionState) (j : PBJob),
      j ∈ st.cmd_list_2 → j ∈ (l.foldl (partitionOne fs) st).cmd_list_2
  | [], _, _ => fun h => h
  | b :: l, st, j => fun h =>
      foldPartition_mono_2 fs l (partitionOne fs st b) j
        (partitionOne_mono_2 fs st b j h)

/-- Every non-MFS image that needs work ends up queued, with its own
coarse-channel key, in one of the two command lists. -/
lemma foldPartition_mem_of_processed (fs : FileState) :
    ∀ (l : List String) (st : PartitionState) (b : String),
      b ∈ l → isMFS b = false → needsWork fs b = true →
      PBJob.mk b (getCoch b) ∈ (l.foldl (partitionOne fs) st).cmd_list_1 ∨
      PBJob.mk b (getCoch b) ∈ (l.foldl (partitionOne fs) st).cmd_list_2
  | [], _, b => by
      intro h _ _
      exact absurd h (List.not_mem_nil b)
  | a :: l, st, b => by
      intro hb hm hn
      rw [List.foldl_cons]
      rcases List.mem_cons.mp hb with rfl | hb'
      · by_cases hc : getCoch b ∈ st.pb_coch
        · rw [partitionOne_secondary fs st b hm hn hc]
          exact Or.inr (foldPartition_mono_2 fs l _ _
            (List.mem_append_right _ (List.mem_singleton_self _)))
        · rw [partitionOne_primary fs st b hm hn hc]
          exact Or.inl (foldPartition_mono_1 fs l _ _
            (List.mem_append_right _ (List.mem_singleton_self _)))
      · exact foldPartition_mem_of_processed fs l (partitionOne fs st a) b
          hb' hm hn

/-- C6: for every filesystem state and every image list, the
deduplication loop queues primaries with pairwise-distinct keys, one
per distinct key of the processed (non-MFS, non-skipped) items; the
secondaries number the processed items minus the distinct keys; and
every secondary's key equals the key of exactly one primary. -/
theorem C6_partition_dedup (fs : FileState) (images : List String) :
    ((partitionImages fs images).cmd_list_1.map PBJob.key).Nodup ∧
    (partitionImages fs images).cmd_list_1.length
      = (((processedImages fs images).map getCoch).toFinset).card ∧
    (partitionImages fs images).cmd_list_1.length
        + (partitionImages fs images).cmd_list_2.length
      = (processedImages fs images).length ∧
    (partitionImages fs images).cmd_list_2.length
      = (processedImages fs images).length
        - (((processedImages fs images).map getCoch).toFinset).card ∧
    ∀ j ∈ (partitionImages fs images).cmd_list_2,
      ((partitionImages fs images).cmd_list_1.map PBJob.key).count j.key = 1 := by
  have h := foldPartition_spec fs images ⟨[], [], []⟩ rfl List.nodup_nil
    (by intro j hj; exact absurd hj (List.not_mem_nil j))
  simp only [partitionImages]
  have hnodup :
      ((images.foldl (partitionOne fs) ⟨[], [], []⟩).cmd_list_1.map
        PBJob.key).Nodup := h.1 ▸ h.2.1
  have hcard :
      (images.foldl (partitionOne fs) ⟨[], [], []⟩).cmd_list_1.length
        = (((processedImages fs images).map getCoch).toFinset).card := by
    have h1 : (images.foldl (partitionOne fs) ⟨[], [], []⟩).pb_coch.length
        = (images.foldl (partitionOne fs) ⟨[], [], []⟩).cmd_list_1.length := by
      rw [h.1, List.length_map]
    have h2 := List.toFinset_card_of_nodup h.2.1
    have h3 := h.2.2.2.2
    rw [show ((⟨[], [], []⟩ : PartitionState)).pb_coch.toFinset = ∅ from rfl,
      Finset.empty_union] at h3
    rw [← h1, ← h2, h3]
  have hlen := h.2.2.2.1
  simp only [show ((⟨[], [], []⟩ : PartitionState)).cmd_list_1.length = 0
      from rfl,
    show ((⟨[], [], []⟩ : PartitionState)).cmd_list_2.length = 0 from rfl,
    Nat.zero_add] at hlen
  refine ⟨hnodup, hcard, hlen, by omega, ?_⟩
  intro j hj
  have hk := h.2.2.1 j hj
  rw [h.1] at hk
  exact List.count_eq_one_of_mem hnodup hk

/-- The command lists only ever receive non-MFS images. -/
lemma foldPartition_nonMFS (fs : FileState) :
    ∀ (l : List String) (st : PartitionState),
      (∀ j ∈ st.cmd_list_1, isMFS j.image = false) →
      (∀ j ∈ st.cmd_list_2, isMFS j.image = false) →
      (∀ j ∈ (l.foldl (partitionOne fs) st).cmd_list_1,
          isMFS j.image = false) ∧
      (∀ j ∈ (l.foldl (partitionOne fs) st).cmd_list_2,
          isMFS j.image = false)
  | [], st => fun h1 h2 => ⟨h1, h2⟩
  | b :: l, st => by
      intro h1 h2
      rw [List.foldl_cons]
      by_cases hm : isMFS b = true
      · rw [partitionOne_skip fs st b (Or.inl hm)]
        exact foldPartition_nonMFS fs l st h1 h2
      · have hm' : isMFS b = false := by simpa using hm
        by_cases hn : needsWork fs b = true
        · by_cases hc : getCoch b ∈ st.pb_coch
          · rw [partitionOne_secondary fs st b hm' hn hc]
            refine foldPartition_nonMFS fs l _ h1 ?_
            intro j hj
            rcases List.mem_append.mp hj with hj | hj
            · exact h2 j hj
            · rw [List.mem_singleton.mp hj]
              exact hm'
          · rw [partitionOne_primary fs st b hm' hn hc]
            refine foldPartition_nonMFS fs l _ ?_ h2
            intro j hj
            rcases List.mem_append.mp hj with hj | hj
            · exact h1 j hj
            · rw [List.mem_singleton.mp hj]
              exact hm'
        · have hn' : needsWork fs b = false := by simpa using hn
          rw [partitionOne_skip fs st b (Or.inr hn')]
          exact foldPartition_nonMFS fs l st h1 h2

/-- C9: no image whose basename contains `MFS` is ever queued, as a
primary or as a secondary, whatever the filesystem state: every queued
job's image is MFS-free. -/
theorem C9_MFS_never_queued (fs : FileState) (images : List String)
    (j : PBJob)
    (h : j ∈ (partitionImages fs images).cmd_list_1 ∨
         j ∈ (partitionImages fs images).cmd_list_2) :
    isMFS j.image = false := by
  have hh := foldPartition_nonMFS fs images ⟨[], [], []⟩
    (by intro x hx; exact absurd hx (List.not_mem_nil x))
    (by intro x hx; exact absurd hx (List.not_mem_nil x))
  simp only [partitionImages] at h
  rcases h with h | h
  · exact hh.1 j h
  · exact hh.2 j h

/-- Witness for C9: on a directory holding one ordinary channel image
and one MFS image, the channel image is queued as a primary, and the
theorem yields that its name is MFS-free. -/
theorem C9_MFS_never_queued_witness :
    ((PBJob.mk "a-coch-100-image.fits" "100")
        ∈ (partitionImages ⟨[], []⟩
            ["a-coch-100-image.fits", "d-MFS-image.fits"]).cmd_list_1 ∨
     (PBJob.mk "a-coch-100-image.fits" "100")
        ∈ (partitionImages ⟨[], []⟩
            ["a-coch-100-image.fits", "d-MFS-image.fits"]).cmd_list_2) ∧
    isMFS (PBJob.mk "a-coch-100-image.fits" "100").image = false :=
  ⟨by decide,
   C9_MFS_never_queued ⟨[], []⟩
     ["a-coch-100-image.fits", "d-MFS-image.fits"]
     (PBJob.mk "a-coch-100-image.fits" "100") (by decide)⟩

/-- Witness for C6 on a concrete directory: two images share channel
100 and one sits on channel 121, giving two primaries, one secondary,
and a secondary key counted exactly once among the primaries. -/
theorem C6_partition_dedup_witness :
    ((partitionImages ⟨[], []⟩
        ["a-coch-100-image.fits", "b-coch-100-image.fits",
         "c-coch-121-image.fits"]).cmd_list_1.map PBJob.key).count "100"
      = 1 :=
  (C6_partition_dedup ⟨[], []⟩
      ["a-coch-100-image.fits", "b-coch-100-image.fits",
       "c-coch-121-image.fits"]).2.2.2.2
    (PBJob.mk "b-coch-100-image.fits" "100") (by decide)

/-- A filesystem state for the C5 counterexample: the corrected output
of `a-coch-100-image.fits` already exists in `pbcor_images`, but the
channel-100 artifact `pbs/pbfile_100.npy` does not. -/
def fsC5 : FileState :=
  ⟨["a-coch-100-image_pbcor.fits"], []⟩

/-- C5 counterexample: with the corrected output present but the
artifact absent, the claim says the item is skipped, yet the loop
queues it as a primary (`exists(output) == False or exists(artifact)
== False` is true because of the missing artifact). -/
theorem C5_counterexample :
    pyIn (getOutfile "a-coch-100-image.fits" ++ ".fits") fsC5.outputs = true ∧
    (partitionImages fsC5 ["a-coch-100-image.fits"]).cmd_list_1
      = [PBJob.mk "a-coch-100-image.fits" "100"] := by
  constructor
  · decide
  · decide

/-- C5 (amended): a non-MFS item is skipped exactly when BOTH its
corrected output and its channel artifact already exist; when either is
missing, the iteration queues it, growing the two command lists by one
entry in total. -/
theorem C5_skip_requires_both (fs : FileState) (st : PartitionState)
    (b : String) (h : isMFS b = false) :
    ((pyIn (getOutfile b ++ ".fits") fs.outputs
        && pyIn (getCoch b) fs.artifacts) = true →
      partitionOne fs st b = st) ∧
    ((pyIn (getOutfile b ++ ".fits") fs.outputs
        && pyIn (getCoch b) fs.artifacts) = false →
      (partitionOne fs st b).cmd_list_1.length
          + (partitionOne fs st b).cmd_list_2.length
        = st.cmd_list_1.length + st.cmd_list_2.length + 1) := by
  constructor
  · intro hb
    have hb' := (Bool.and_eq_true _ _).mp hb
    apply partitionOne_skip fs st b
    right
    simp [needsWork, hb'.1, hb'.2]
  · intro hb
    have hn : needsWork fs b = true := by
      simp only [needsWork, Bool.or_eq_true, Bool.not_eq_true']
      rcases Bool.and_eq_false_iff.mp hb with hb | hb
      · exact Or.inl hb
      · exact Or.inr hb
    by_cases hc : getCoch b ∈ st.pb_coch
    · rw [partitionOne_secondary fs st b h hn hc]
      show st.cmd_list_1.length
          + (st.cmd_list_2 ++ [PBJob.mk b (getCoch b)]).length
        = st.cmd_list_1.length + st.cmd_list_2.length + 1
      simp [List.length_append]
      omega
    · rw [partitionOne_primary fs st b h hn hc]
      show (st.cmd_list_1 ++ [PBJob.mk b (getCoch b)]).length
          + st.cmd_list_2.length
        = st.cmd_list_1.length + st.cmd_list_2.length + 1
      simp [List.length_append]
      omega

/-- Witness for C5's amended statement at a concrete item with both
files missing: the lists grow by exactly one entry. -/
theorem C5_skip_requires_both_witness :
    isMFS "a-coch-100-image.fits" = false ∧
    ((pyIn (getOutfile "a-coch-100-image.fits" ++ ".fits")
        (FileState.mk [] []).outputs
      && pyIn (getCoch "a-coch-100-image.fits")
        (FileState.mk [] []).artifacts) = false →
      (partitionOne ⟨[], []⟩ ⟨[], [], []⟩
          "a-coch-100-image.fits").cmd_list_1.length
        + (partitionOne ⟨[], []⟩ ⟨[], [], []⟩
            "a-coch-100-image.fits").cmd_list_2.length
      = (PartitionState.mk [] [] []).cmd_list_1.length
        + (PartitionState.mk [] [] []).cmd_list_2.length + 1) :=
  ⟨by decide,
   (C5_skip_requires_both ⟨[], []⟩ ⟨[], [], []⟩ "a-coch-100-image.fits"
      (by decide)).2⟩

/-!
## ParallelExecutor: submission order and failure handling
(correct_pb.py lines 110-124)
-/

/-- Modelled from the spec: the external correction command `mwapb.py`
is not among the sources; per the spec it "produces a corrected image
file plus (for the first job per key) a cached artifact file". So
after the first `Parallel` block (correct_pb.py lines 114-117) has run
every command of `cmd_list_1`, the artifacts on disk are the initial
ones plus the keys of exactly those primaries whose command succeeded
(`ok`). A failed primary writes no artifact. -/
def artifactsAfterPrimaries (fs : FileState) (st : PartitionState)
    (ok : PBJob → Bool) : List String :=
  fs.artifacts ++ (st.cmd_list_1.filter ok).map PBJob.key

/-- The second `Parallel` block (correct_pb.py lines 118-121) submits
every command of `cmd_list_2` unconditionally: no check that the
artifact file its `--pb_jones_file` argument points at exists. -/
def submittedSecondaries (st : PartitionState) : List PBJob :=
  st.cmd_list_2

/-- Two same-channel images over an empty directory, for the C2
failure scenario. -/
def imagesC2 : List String :=
  ["a-coch-100-image.fits", "b-coch-100-image.fits"]

/-- C2: when the (only) primary for key 100 fails and therefore leaves
no `pbs/pbfile_100.npy`, the executor still submits the key-100
secondary in the second Parallel block: the secondary is submitted
while its artifact does not exist. -/
theorem C2_secondary_submitted_without_artifact :
    (PBJob.mk "b-coch-100-image.fits" "100")
        ∈ submittedSecondaries (partitionImages ⟨[], []⟩ imagesC2) ∧
    "100" ∉ artifactsAfterPrimaries ⟨[], []⟩
        (partitionImages ⟨[], []⟩ imagesC2) (fun _ => false) := by
  constructor
  · decide
  · decide

/-- Modelled from the spec: the filesystem after a first run of
`correctpb_spectral_images` in which every submitted job succeeded.
Each queued job's corrected output lands in `pbcor_images` (the
external command writes it and line 124 moves it there), and each
primary's `pbs/pbfile_<key>.npy` artifact is written; nothing is
deleted. -/
def postRunState (fs : FileState) (images : List String) : FileState :=
  { outputs := fs.outputs
      ++ (((partitionImages fs images).cmd_list_1
            ++ (partitionImages fs images).cmd_list_2).map
          (fun j => getOutfile j.image ++ ".fits"))
    artifacts := fs.artifacts
      ++ ((partitionImages fs images).cmd_list_1.map PBJob.key) }

/-- `needsWork` is false exactly when both the corrected output and the
channel artifact are present. -/
lemma needsWork_eq_false_iff (fs : FileState) (b : String) :
    needsWork fs b = false ↔
      (getOutfile b ++ ".fits") ∈ fs.outputs ∧ getCoch b ∈ fs.artifacts := by
  simp [needsWork, pyIn]

/-- If every image of the list is either an MFS image or already
satisfied, the loop queues nothing. -/
lemma foldPartition_all_skip (fs : FileState) :
    ∀ (l : List String) (st : PartitionState),
      (∀ b ∈ l, isMFS b = true ∨ needsWork fs b = false) →
      l.foldl (partitionOne fs) st = st
  | [], _ => fun _ => rfl
  | b :: l, st => by
      intro h
      rw [List.foldl_cons, partitionOne_skip fs st b (h b (List.mem_cons_self b l)),
        foldPartition_all_skip fs l st (fun x hx => h x (List.mem_cons_of_mem b hx))]

/-- C7: a second run over the same images, after a first run in which
every job succeeded and nothing changed in between, queues no job at
all: both command lists come out empty (which is exactly the case in
which correct_pb.py line 111 reports that PB correction is already
done). -/
theorem C7_second_run_queues_nothing (fs : FileState) (images : List String) :
    partitionImages (postRunState fs images) images = ⟨[], [], []⟩ := by
  have hspec := foldPartition_spec fs images ⟨[], [], []⟩ rfl List.nodup_nil
    (by intro j hj; exact absurd hj (List.not_mem_nil j))
  apply foldPartition_all_skip
  intro b hb
  by_cases hm : isMFS b = true
  · exact Or.inl hm
  · right
    have hm' : isMFS b = false := by simpa using hm
    rw [needsWork_eq_false_iff]
    simp only [postRunState]
    by_cases hn : needsWork fs b = true
    · have hmem := foldPartition_mem_of_processed fs images ⟨[], [], []⟩ b
        hb hm' hn
      simp only [partitionImages] at hmem ⊢
      constructor
      · apply List.mem_append_right
        rcases hmem with hj | hj
        · exact List.mem_map.mpr ⟨_, List.mem_append_left _ hj, rfl⟩
        · exact List.mem_map.mpr ⟨_, List.mem_append_right _ hj, rfl⟩
      · apply List.mem_append_right
        rcases hmem with hj | hj
        · exact List.mem_map.mpr ⟨_, hj, rfl⟩
        · have hk := hspec.2.2.1 _ hj
          rw [hspec.1] at hk
          exact hk
    · have hn' : needsWork fs b = false := by simpa using hn
      rw [needsWork_eq_false_iff] at hn'
      exact ⟨List.mem_append_left _ hn'.1, List.mem_append_left _ hn'.2⟩

/-!
## BatchLauncher: `create_batch_script_nonhpc` (basic_func.py lines 263-299)
-/

/-- The marker files of one job, named after its basename:
`.Running_<basename>`, `.Finished_<basename>_0` (success) and
`.Finished_<basename>_error`. -/
structure MarkerState where
  running : Bool
  success : Bool
  err : Bool
deriving DecidableEq, Repr

/-- `os.system("rm -rf " + finished_touch_file + "*")` (basic_func.py
line 283): both finished markers for the basename are removed before
the scripts are written. -/
def cleanupMarkers (st : MarkerState) : MarkerState :=
  { st with success := false, err := false }

/-- Embedding of the inner command script written at basic_func.py
line 286:
`touch running ; cmd ; sleep 2 ; exit_code=$? ; rm -rf running ;
if [ $? -ne 0 ] then touch error else touch success fi`.
Each shell step's exit status is a parameter. The `exit_code`
variable captures the status of `sleep 2` (not of `cmd`) and is never
read again; the `if` tests `$?` of `rm -rf running`, so the marker
choice depends only on `rmExit`. -/
def runInnerScript (st : MarkerState) (cmdExit sleepExit rmExit : Nat) :
    MarkerState :=
  let st1 : MarkerState := { st with running := true }
  let exit_code := sleepExit
  let st2 : MarkerState := { st1 with running := false }
  if rmExit ≠ 0 then { st2 with err := true }
  else { st2 with success := true }

/-- The marker state after `create_batch_script_nonhpc` relaunches a
job (clearing stale finished markers) and the regenerated inner script
runs to completion with the given step exit statuses. -/
def jobMarkers (st : MarkerState) (cmdExit sleepExit rmExit : Nat) :
    MarkerState :=
  runInnerScript (cleanupMarkers st) cmdExit sleepExit rmExit

/-- C4: the failing input — the job's command exits with status 1
while `sleep` and `rm` succeed. The script writes the SUCCESS marker
`.Finished_<basename>_0` and no `_error` marker, because its `if`
tests the exit status of `rm -rf` (the `exit_code=$?` line captures
`sleep`'s status and is never used), not the command's. Exactly one
marker is left, but it is the wrong one. -/
theorem C4_error_marker_ignores_cmd_exit :
    (jobMarkers ⟨false, false, false⟩ 1 0 0).success = true ∧
    (jobMarkers ⟨false, false, false⟩ 1 0 0).err = false ∧
    (∀ c s r : Nat, ∀ st : MarkerState,
      (jobMarkers st c s r).success = !(jobMarkers st c s r).err) := by
  refine ⟨rfl, rfl, ?_⟩
  intro c s r st
  by_cases hr : r ≠ 0
  · simp [jobMarkers, runInnerScript, cleanupMarkers, hr]
  · simp [jobMarkers, runInnerScript, cleanupMarkers, hr]

/-!
## CompletionTracker: `wait_for_resources` (basic_func.py lines 764-807)
-/

/-- What one iteration of the polling loop in `wait_for_resources`
observes: whether `check_resource_availability` returned true, and how
many files currently match the glob `basename*`. -/
structure Poll where
  avail : Bool
  fileCount : Nat
deriving DecidableEq, Repr

/-- Embedding of the `while True` loop of basic_func.py lines 783-806
over a finite trace of observations. `initialCount` is the length of
`running_file_list`, globbed once before the loop (line 782). On an
iteration with resources available the loop re-globs; if the initial
list was empty it returns `-1` (lines 789-791); if strictly fewer
files match now than initially it returns the difference
(lines 792-795); otherwise, and whenever resources are unavailable, it
sleeps and polls again. `none` means the trace ended with the loop
still polling (the real loop has no timeout). -/
def waitLoop (initialCount : Nat) : List Poll → Option ℤ
  | [] => none
  | p :: rest =>
      if p.avail then
        if initialCount = 0 then some (-1)
        else if p.fileCount < initialCount then
          some ((initialCount : ℤ) - (p.fileCount : ℤ))
        else waitLoop initialCount rest
      else waitLoop initialCount rest

/-- C10: if no file matches `basename*` when `wait_for_resources` is
called, then as soon as any poll sees resources available the function
returns the sentinel `-1`, not a freed-job count. -/
theorem C10_empty_glob_returns_sentinel (polls : List Poll)
    (h : ∃ p ∈ polls, p.avail = true) :
    waitLoop 0 polls = some (-1) := by
  induction polls with
  | nil =>
      obtain ⟨p, hp, _⟩ := h
      exact absurd hp (List.not_mem_nil p)
  | cons p rest ih =>
      by_cases hp : p.avail = true
      · simp [waitLoop, hp]
      · obtain ⟨q, hq, hqa⟩ := h
        rcases List.mem_cons.mp hq with rfl | hq'
        · exact absurd hqa hp
        · have hp' : p.avail = false := by simpa using hp
          simp only [waitLoop, hp', Bool.false_eq_true, if_false]
          exact ih ⟨q, hq', hqa⟩

/-- Witness for C10: a single poll with resources available and five
(freshly appeared, irrelevant) matching files still returns `-1`. -/
theorem C10_empty_glob_returns_sentinel_witness :
    (∃ p ∈ [Poll.mk true 5], p.avail = true) ∧
    waitLoop 0 [Poll.mk true 5] = some (-1) :=
  ⟨⟨Poll.mk true 5, List.mem_singleton_self _, rfl⟩,
   C10_empty_glob_returns_sentinel [Poll.mk true 5]
     ⟨Poll.mk true 5, List.mem_singleton_self _, rfl⟩⟩
